import Mathlib

/-!
Shallow embedding of `weight_tracker.py` (repository `decherd/weight_tracker`).

The program is a personal weight logger backed by a SQLite database with two
tables: `weights(date TEXT PRIMARY KEY, weight REAL)` and
`preferences(key TEXT PRIMARY KEY, value TEXT)`.  We model a table as a list
of rows; the PRIMARY KEY constraint is the hypothesis that the key column has
no duplicates.  `REAL` values are modelled as exact rationals, dates as the
strings the program stores, and `datetime.date` objects as a `Date` structure
together with CPython's proleptic-Gregorian ordinal (`date.toordinal`).
-/

set_option linter.unusedVariables false

/-- Calendar date, modelling a Python `datetime.date` value
(fields as produced by `datetime.datetime.strptime(s, '%Y-%m-%d').date()`). -/
structure Date where
  year : Nat
  month : Nat
  day : Nat
deriving DecidableEq, Repr

/-- ASCII decimal digit test (codepoints 48–57), as matched by the `\d`
classes in CPython `_strptime`'s format regexes. -/
def digit? (c : Char) : Bool := 48 ≤ c.toNat && c.toNat ≤ 57

/-- Numeric value of an ASCII digit character. -/
def dval (c : Char) : Nat := c.toNat - 48

/-- ASCII digit character for a value `0–9`. -/
def digitChar (n : Nat) : Char := Char.ofNat (48 + n)

/-- Read one or two leading decimal digits (greedily), returning the value and
the remaining characters.  This models the 1-or-2-digit numeric fields `%m`
and `%d` of CPython `strptime` (whose regexes match two digits when the
two-digit reading is in range, else one); range checking happens separately in
`parseDate`, with the same accept/reject outcome as the regex alternation. -/
def readDD : List Char → Option (Nat × List Char)
  | [] => none
  | [c] => if digit? c then some (dval c, []) else none
  | c1 :: c2 :: rest =>
    if digit? c1 then
      if digit? c2 then some (10 * dval c1 + dval c2, rest)
      else some (dval c1, c2 :: rest)
    else none

/-- Syntactic part of `strptime(s, '%Y-%m-%d')`: exactly four digits for `%Y`,
a literal dash, one or two digits for `%m`, a dash, one or two digits for
`%d`, and end of input (CPython rejects unconverted trailing data). -/
def parseYMD (cs : List Char) : Option (Nat × Nat × Nat) :=
  match cs with
  | y1 :: y2 :: y3 :: y4 :: c5 :: rest =>
    if digit? y1 && digit? y2 && digit? y3 && digit? y4 && c5 = '-' then
      match readDD rest with
      | some (m, rest1) =>
        match rest1 with
        | c6 :: rest2 =>
          if c6 = '-' then
            match readDD rest2 with
            | some (d, rest3) =>
              if rest3.isEmpty then
                some (1000 * dval y1 + 100 * dval y2 + 10 * dval y3 + dval y4, m, d)
              else none
            | none => none
          else none
        | [] => none
      | none => none
    else none
  | _ => none

/-- Gregorian leap-year test, as in CPython `datetime._is_leap`. -/
def leapYear (y : Nat) : Bool := y % 4 == 0 && (y % 100 != 0 || y % 400 == 0)

/-- Number of days in a month, as in CPython `datetime._days_in_month`. -/
def daysInMonth (y m : Nat) : Nat :=
  if m = 2 then (if leapYear y then 29 else 28)
  else if m = 4 ∨ m = 6 ∨ m = 9 ∨ m = 11 then 30
  else 31

/-- Model of `datetime.datetime.strptime(s, '%Y-%m-%d').date()`: syntactic
match of the format, then the `datetime.date` constructor's range validation
(`1 ≤ year ≤ 9999` — the year is already at most 9999 having four digits —
`1 ≤ month ≤ 12`, `1 ≤ day ≤ days_in_month`).  `none` models the raised
`ValueError`. -/
def parseDate (s : String) : Option Date :=
  match parseYMD s.data with
  | some (y, m, d) =>
    if 1 ≤ y ∧ 1 ≤ m ∧ m ≤ 12 ∧ 1 ≤ d ∧ d ≤ daysInMonth y m then some ⟨y, m, d⟩
    else none
  | none => none

/-- Days in all years strictly before year `y`, as in CPython
`datetime._days_before_year`. -/
def daysBeforeYear (y : Nat) : Nat :=
  365 * (y - 1) + (y - 1) / 4 - (y - 1) / 100 + (y - 1) / 400

/-- Days in year `y` strictly before month `m`, as in CPython
`datetime._days_before_month` (table `_DAYS_BEFORE_MONTH` plus the leap-day
adjustment for months after February). -/
def daysBeforeMonth (y m : Nat) : Nat :=
  (match m with
   | 1 => 0 | 2 => 31 | 3 => 59 | 4 => 90 | 5 => 120 | 6 => 151
   | 7 => 181 | 8 => 212 | 9 => 243 | 10 => 273 | 11 => 304 | 12 => 334
   | _ => 0)
  + (if 2 < m ∧ leapYear y then 1 else 0)

/-- Proleptic Gregorian ordinal of a date, as in CPython `date.toordinal()`
(day 1 is 0001-01-01). -/
def toOrdinal (d : Date) : Nat :=
  daysBeforeYear d.year + daysBeforeMonth d.year d.month + d.day

/-- Zero-padded two-digit rendering of a number (its last two decimal
digits), as characters. -/
def pad2 (n : Nat) : List Char := [digitChar (n / 10 % 10), digitChar (n % 10)]

/-- Zero-padded four-digit rendering of a number (its last four decimal
digits), as characters. -/
def pad4 (n : Nat) : List Char :=
  [digitChar (n / 1000 % 10), digitChar (n / 100 % 10),
   digitChar (n / 10 % 10), digitChar (n % 10)]

/-- Characters of the ISO-8601 `YYYY-MM-DD` rendering of a date
(`date.isoformat()` for years up to 9999). -/
def isoChars (d : Date) : List Char :=
  pad4 d.year ++ '-' :: (pad2 d.month ++ '-' :: pad2 d.day)

/-- ISO-8601 `YYYY-MM-DD` string of a date, as produced by
`datetime.date.isoformat()`. -/
def toISO (d : Date) : String := ⟨isoChars d⟩

/-- Model of Python `str.split(':')`: splits a character list at every colon,
keeping (possibly empty) segments. -/
def splitColon : List Char → List (List Char)
  | [] => [[]]
  | c :: rest =>
    match splitColon rest with
    | [] => [[]]
    | seg :: segs => if c = ':' then [] :: seg :: segs else (c :: seg) :: segs

/-- Model of Python `graph_range.startswith('from:')`. -/
def startsFrom (s : String) : Bool :=
  match s.data with
  | c1 :: c2 :: c3 :: c4 :: c5 :: _ =>
    c1 = 'f' && c2 = 'r' && c3 = 'o' && c4 = 'm' && c5 = ':'
  | _ => false

/-- State of the `weights` table: a list of `(date, weight)` rows.  The
`date TEXT PRIMARY KEY` constraint corresponds to the key column being
duplicate-free. -/
abbrev Weights := List (String × ℚ)

/-- Model of `log_weight` (source lines 26–31): the SQLite
`INSERT OR REPLACE INTO weights VALUES (?, ?)` statement deletes any existing
row with the same primary key and inserts the new row.  Note: no validation
of `date` is performed anywhere on this path. -/
def log_weight (s : Weights) (date : String) (weight : ℚ) : Weights :=
  s.filter (fun r => decide (r.1 ≠ date)) ++ [(date, weight)]

/-- Row comparison used by `ORDER BY date`: SQLite compares `TEXT` values
bytewise (`memcmp`), which on UTF-8 agrees with Lean's lexicographic `String`
order. -/
def rowLE (a b : String × ℚ) : Prop := a.1 ≤ b.1

instance : DecidableRel rowLE := fun a b => inferInstanceAs (Decidable (a.1 ≤ b.1))

instance : IsTotal (String × ℚ) rowLE := ⟨fun a b => le_total a.1 b.1⟩

instance : IsTrans (String × ℚ) rowLE := ⟨fun _ _ _ h h2 => le_trans h h2⟩

/-- Rows produced by the SQL of `get_weights` (source lines 37–40):
`SELECT date, weight FROM weights [WHERE date >= ?] ORDER BY date`.  The sort
algorithm is irrelevant: with unique primary keys the sorted row list is
unique. -/
def query_rows (s : Weights) (start_date : Option String) : Weights :=
  List.insertionSort rowLE
    (match start_date with
     | some d => s.filter (fun r => decide (d ≤ r.1))
     | none => s)

/-- The list comprehension at source line 45: `strptime` applied to each
fetched date string; `none` models the `ValueError` raised on a malformed
stored date. -/
def mapDates : Weights → Option (List Date)
  | [] => some []
  | r :: rest =>
    match parseDate r.1, mapDates rest with
    | some d, some ds => some (d :: ds)
    | _, _ => none

/-- Model of `get_weights` (source lines 33–47): fetch the (optionally
filtered) rows ordered by date, parse the date strings, and return the
parallel lists `dates, weights`. -/
def get_weights (s : Weights) (start_date : Option String) :
    Option (List Date × List ℚ) :=
  match mapDates (query_rows s start_date) with
  | some ds => some (ds, (query_rows s start_date).map (fun r => r.2))
  | none => none

/-- State of the `preferences` table. -/
abbrev Prefs := List (String × String)

/-- Model of `get_preference` (source lines 56–62): `SELECT value FROM
preferences WHERE key = ?`, returning the default when no row matches. -/
def get_preference (prefs : Prefs) (key dflt : String) : String :=
  match prefs.find? (fun r => r.1 == key) with
  | some r => r.2
  | none => dflt

/-- Output of the trend computation inside `generate_graph`: the fitted-line
slope (lbs/day), the fitted value at each observed date, and the raw
endpoint delta `weights[-1] - weights[0]`. -/
structure TrendResult where
  slope : ℚ
  fitted : List ℚ
  total_change : ℚ
deriving DecidableEq, Repr

/-- Ordinary-least-squares slope of `sklearn.linear_model.LinearRegression`
on one feature: center the data, then the closed-form `Sxy / Sxx`.  For the
degenerate `Sxx = 0` case (at most one sample, or all dates identical) the
least-squares solver returns the minimum-norm coefficient `0`. -/
def olsSlope (xs ys : List ℚ) : ℚ :=
  let n : ℚ := xs.length
  let xbar := xs.sum / n
  let ybar := ys.sum / n
  let sxx := (xs.map (fun x => (x - xbar) ^ 2)).sum
  let sxy := ((xs.zip ys).map (fun p => (p.1 - xbar) * (p.2 - ybar))).sum
  if sxx = 0 then 0 else sxy / sxx

/-- Trend computation of `generate_graph` (source lines 64–75): dates are
converted to ordinals, a linear model is fitted, and
`total_change = weights[-1] - weights[0]`.  `none` models the `ValueError`
raised by `model.fit` when given zero samples or mismatched array lengths;
plotting is an external sink and is not modelled.  Exact rational arithmetic
stands in for the float64 computation. -/
def generate_graph (dateOrds : List Nat) (weights : List ℚ) : Option TrendResult :=
  if dateOrds.length = 0 ∨ dateOrds.length ≠ weights.length then none
  else
    let xs : List ℚ := dateOrds.map (fun d => (d : ℚ))
    let slope := olsSlope xs weights
    let intercept := weights.sum / (weights.length : ℚ) - slope * (xs.sum / (xs.length : ℚ))
    some ⟨slope, xs.map (fun x => intercept + slope * x), weights.getLastD 0 - weights.headD 0⟩

/-- Range resolution of `main` (source lines 139–155), with today's date
injected as an ordinal.  `graph_range` is `args.range` if given, else the
stored `default_range` preference, else `'all'`.  An explicit `from_date` is
parsed and wins; a `from:`-tagged range parses the text after the first
colon (`split(':')[1]`); `1m`/`6m`/`1y` subtract fixed day counts from
today; anything else means no lower bound.  The outer `none` models the
`ValueError` raised by `strptime` on a malformed date; `some none` means no
lower bound; `some (some o)` is a lower bound at ordinal `o`. -/
def resolveStart (prefs : Prefs) (args_range : Option String)
    (args_from_date : Option String) (today : Nat) : Option (Option Nat) :=
  let graph_range := match args_range with
    | some r => r
    | none => get_preference prefs "default_range" "all"
  match args_from_date with
  | some s =>
    match parseDate s with
    | some d => some (some (toOrdinal d))
    | none => none
  | none =>
    if startsFrom graph_range then
      match parseDate ⟨(splitColon graph_range.data).getD 1 []⟩ with
      | some d => some (some (toOrdinal d))
      | none => none
    else if graph_range = "1m" then some (some (today - 30))
    else if graph_range = "6m" then some (some (today - 180))
    else if graph_range = "1y" then some (some (today - 365))
    else some none

/-- Validity of a `Date` as enforced by the `datetime.date` constructor:
years 1–9999, months 1–12, days 1 to the length of the month. -/
def validDate (d : Date) : Prop :=
  1 ≤ d.year ∧ d.year ≤ 9999 ∧ 1 ≤ d.month ∧ d.month ≤ 12 ∧
    1 ≤ d.day ∧ d.day ≤ daysInMonth d.year d.month

instance (d : Date) : Decidable (validDate d) := by unfold validDate; infer_instance

/-- Chronological strict order on dates via their fields (year, then month,
then day). -/
def dateFieldLt (a b : Date) : Prop :=
  a.year < b.year ∨ (a.year = b.year ∧
    (a.month < b.month ∨ (a.month = b.month ∧ a.day < b.day)))

instance (a b : Date) : Decidable (dateFieldLt a b) := by unfold dateFieldLt; infer_instance

/-- The store produced by the spec's end-to-end scenario: three weights
logged into an empty store. -/
def demoStore : Weights :=
  log_weight (log_weight (log_weight [] "2024-01-01" 180) "2024-01-08" 178)
    "2024-01-15" 176

/-- End-to-end pipeline on the scenario store: query with no lower bound,
then run the trend computation of `generate_graph` on the resulting series
(dates converted to ordinals exactly as at source line 65). -/
def demoTrend : Option TrendResult :=
  match get_weights demoStore none with
  | some (ds, ws) => generate_graph (ds.map toOrdinal) ws
  | none => none

/-- Small sample store (rows deliberately out of date order) used to witness
the query theorems at a concrete input. -/
def wStore : Weights := [("2024-01-02", 2), ("2024-01-01", 1)]

/-! ### Helper lemmas about the query pipeline -/

lemma query_rows_some_eq (s : Weights) (d : String) :
    query_rows s (some d) = List.insertionSort rowLE (s.filter (fun r => decide (d ≤ r.1))) := rfl

lemma query_rows_none_eq (s : Weights) :
    query_rows s none = List.insertionSort rowLE s := rfl

lemma mem_query_rows_some (s : Weights) (d : String) (r : String × ℚ) :
    r ∈ query_rows s (some d) ↔ r ∈ s ∧ d ≤ r.1 := by
  rw [query_rows_some_eq, (List.perm_insertionSort rowLE _).mem_iff]
  simp [List.mem_filter]

lemma mem_query_rows_none (s : Weights) (r : String × ℚ) :
    r ∈ query_rows s none ↔ r ∈ s := by
  rw [query_rows_none_eq]
  exact (List.perm_insertionSort rowLE _).mem_iff

lemma sorted_of_sublist {s l : Weights} (h : (s.map Prod.fst).Nodup) (hsub : l.Sublist s) :
    (List.insertionSort rowLE l).Pairwise (fun a b => a.1 < b.1) := by
  have hnd0 : (l.map Prod.fst).Nodup := List.Nodup.sublist (hsub.map Prod.fst) h
  have hnd : ((List.insertionSort rowLE l).map Prod.fst).Nodup :=
    (((List.perm_insertionSort rowLE l).map Prod.fst).nodup_iff).2 hnd0
  have hs : (List.insertionSort rowLE l).Sorted rowLE := List.sorted_insertionSort rowLE l
  have hne : (List.insertionSort rowLE l).Pairwise (fun a b => a.1 ≠ b.1) :=
    (List.pairwise_map).1 hnd
  exact (hs.and hne).imp (fun hab => lt_of_le_of_ne hab.1 hab.2)

lemma query_rows_sorted (s : Weights) (start : Option String)
    (h : (s.map Prod.fst).Nodup) :
    (query_rows s start).Pairwise (fun a b => a.1 < b.1) := by
  cases start with
  | none => rw [query_rows_none_eq]; exact sorted_of_sublist h (List.Sublist.refl s)
  | some d => rw [query_rows_some_eq]; exact sorted_of_sublist h (List.filter_sublist s)

lemma query_rows_empty (s : Weights) (d : String) (h : ∀ r ∈ s, ¬ d ≤ r.1) :
    query_rows s (some d) = [] := by
  rw [query_rows_some_eq]
  have he : s.filter (fun r => decide (d ≤ r.1)) = [] := by
    rw [List.filter_eq_nil_iff]
    intro r hr
    simpa using h r hr
  rw [he]
  rfl

lemma mapDates_length {l : Weights} {ds : List Date} (h : mapDates l = some ds) :
    ds.length = l.length := by
  induction l generalizing ds with
  | nil =>
    simp only [mapDates, Option.some_inj] at h
    subst h; rfl
  | cons r rest ih =>
    rcases hp : parseDate r.1 with _ | d
    · simp [mapDates, hp] at h
    · rcases hm : mapDates rest with _ | ds'
      · simp [mapDates, hp, hm] at h
      · simp only [mapDates, hp, hm, Option.some_inj] at h
        subst h
        simp [ih hm]

lemma mapDates_get {l : Weights} {ds : List Date} (h : mapDates l = some ds) :
    ∀ i (hi : i < l.length) (hd : i < ds.length),
      parseDate (l.get ⟨i, hi⟩).1 = some (ds.get ⟨i, hd⟩) := by
  induction l generalizing ds with
  | nil => intro i hi hd; exact absurd hi (by simp)
  | cons r rest ih =>
    rcases hp : parseDate r.1 with _ | d
    · simp [mapDates, hp] at h
    · rcases hm : mapDates rest with _ | ds'
      · simp [mapDates, hp, hm] at h
      · simp only [mapDates, hp, hm, Option.some_inj] at h
        subst h
        intro i hi hd
        cases i with
        | zero => simpa using hp
        | succ j => exact ih hm j (by simpa using hi) (by simpa using hd)

lemma get_weights_eq {s : Weights} {start : Option String} {ds : List Date} {ws : List ℚ}
    (h : get_weights s start = some (ds, ws)) :
    mapDates (query_rows s start) = some ds
    ∧ ws = (query_rows s start).map (fun r => r.2) := by
  unfold get_weights at h
  rcases hm : mapDates (query_rows s start) with _ | ds' <;> simp [hm] at h
  exact ⟨by rw [h.1], h.2.symm⟩

/-! ### Claim theorems -/

/-- C1: for every date `d` and values `v1, v2`, logging `(d, v1)` and then
`(d, v2)` leaves the store with exactly one measurement row for date `d`,
whose value is `v2` (the most recent write), and the rows for every other
date unchanged. -/
theorem upsert_replaces_and_keeps_others (s : Weights) (d : String) (v1 v2 : ℚ) :
    (log_weight (log_weight s d v1) d v2).filter (fun r => decide (r.1 = d)) = [(d, v2)]
    ∧ ∀ d2, d2 ≠ d →
      (log_weight (log_weight s d v1) d v2).filter (fun r => decide (r.1 = d2))
        = s.filter (fun r => decide (r.1 = d2)) := by
  have hstore : log_weight (log_weight s d v1) d v2
      = s.filter (fun r => decide (r.1 ≠ d)) ++ [(d, v2)] := by
    simp [log_weight, List.filter_append, List.filter_filter]
  constructor
  · rw [hstore, List.filter_append, List.filter_filter]
    simp
  · intro d2 hd2
    rw [hstore, List.filter_append, List.filter_filter]
    have h2 : ((([(d, v2)] : Weights)).filter (fun r => decide (r.1 = d2))) = [] := by
      simp [hd2.symm]
    rw [h2, List.append_nil]
    apply List.filter_congr
    intro r hr
    by_cases h : r.1 = d2
    · simp [h, hd2]
    · simp [h]

/-- C1 witness: the theorem applied at a concrete store, date and values,
discharging the `d2 ≠ d` hypothesis of the second conjunct at `d2 =
"2024-01-05"`. -/
theorem upsert_replaces_and_keeps_others_witness :
    ("2024-01-05" ≠ "2024-01-01")
    ∧ (log_weight (log_weight wStore "2024-01-01" 3) "2024-01-01" 4).filter
        (fun r => decide (r.1 = "2024-01-05"))
      = wStore.filter (fun r => decide (r.1 = "2024-01-05")) :=
  ⟨by decide,
    (upsert_replaces_and_keeps_others wStore "2024-01-01" 3 4).2 "2024-01-05" (by decide)⟩

/-- C2: on a store whose date column is duplicate-free (the PRIMARY KEY
invariant), the query returns exactly the rows whose date is `>=` the start
date (all rows when it is absent), in strictly ascending date order, and a
query matching nothing returns the empty series rather than an error (even
though `get_weights` can fail on malformed stored dates, it parses no row
here).  Ascending date order is stated on the stored ISO strings, which is
the order `ORDER BY date` produces; claim C5 separately proves this agrees
with chronological order for well-formed dates. -/
theorem query_returns_range (s : Weights) (start_date : Option String)
    (hkeys : (s.map Prod.fst).Nodup) :
    (∀ d r, r ∈ query_rows s (some d) ↔ r ∈ s ∧ d ≤ r.1)
    ∧ (∀ r, r ∈ query_rows s none ↔ r ∈ s)
    ∧ (query_rows s start_date).Pairwise (fun a b => a.1 < b.1)
    ∧ (∀ d, (∀ r ∈ s, ¬ d ≤ r.1) → get_weights s (some d) = some ([], [])) := by
  refine ⟨fun d r => mem_query_rows_some s d r, fun r => mem_query_rows_none s r,
    query_rows_sorted s start_date hkeys, fun d hd => ?_⟩
  unfold get_weights
  rw [query_rows_empty s d hd]
  rfl

/-- C2 witness: the theorem applied to the concrete two-row store `wStore`,
whose key-column `Nodup` hypothesis is discharged by `decide`. -/
theorem query_returns_range_witness :
    ((wStore.map Prod.fst).Nodup)
    ∧ ((∀ d r, r ∈ query_rows wStore (some d) ↔ r ∈ wStore ∧ d ≤ r.1)
      ∧ (∀ r, r ∈ query_rows wStore none ↔ r ∈ wStore)
      ∧ (query_rows wStore (some "2024-01-01")).Pairwise (fun a b => a.1 < b.1)
      ∧ (∀ d, (∀ r ∈ wStore, ¬ d ≤ r.1) → get_weights wStore (some d) = some ([], []))) :=
  ⟨by decide, query_returns_range wStore (some "2024-01-01") (by decide)⟩

/-- C4: for start dates `d1 ≤ d2`, the dates returned by a query bounded at
`d2` are a subset of those returned by a query bounded at `d1`. -/
theorem query_range_superset (s : Weights) (d1 d2 : String) (h : d1 ≤ d2) :
    ((query_rows s (some d2)).map Prod.fst) ⊆ ((query_rows s (some d1)).map Prod.fst) := by
  intro x hx
  simp only [List.mem_map] at hx ⊢
  obtain ⟨r, hr, rfl⟩ := hx
  obtain ⟨hrs, hd2⟩ := (mem_query_rows_some s d2 r).1 hr
  exact ⟨r, (mem_query_rows_some s d1 r).2 ⟨hrs, le_trans h hd2⟩, rfl⟩

/-- C4 witness: the theorem applied to `wStore` with the concrete bounds
`"2024-01-01" ≤ "2024-01-02"` discharged by `decide`. -/
theorem query_range_superset_witness :
    (("2024-01-01" : String) ≤ "2024-01-02")
    ∧ ((query_rows wStore (some "2024-01-02")).map Prod.fst)
        ⊆ ((query_rows wStore (some "2024-01-01")).map Prod.fst) :=
  ⟨by rw [String.le_iff_toList_le]; decide,
    query_range_superset wStore "2024-01-01" "2024-01-02"
      (by rw [String.le_iff_toList_le]; decide)⟩

/-- C10: when the query succeeds, the two returned sequences have equal
length, and the date and the value at each index come from the same fetched
row (the row's date string parses to the returned date, and its weight is
the returned value). -/
theorem query_lists_parallel (s : Weights) (start_date : Option String)
    (ds : List Date) (ws : List ℚ)
    (h : get_weights s start_date = some (ds, ws)) :
    ds.length = ws.length
    ∧ ∀ i (hi : i < ds.length) (hw : i < ws.length)
        (hr : i < (query_rows s start_date).length),
        parseDate ((query_rows s start_date).get ⟨i, hr⟩).1 = some (ds.get ⟨i, hi⟩)
        ∧ ((query_rows s start_date).get ⟨i, hr⟩).2 = ws.get ⟨i, hw⟩ := by
  obtain ⟨hmap, hws⟩ := get_weights_eq h
  have hlen : ds.length = (query_rows s start_date).length := mapDates_length hmap
  constructor
  · rw [hlen, hws, List.length_map]
  · intro i hi hw hr
    refine ⟨mapDates_get hmap i hr hi, ?_⟩
    subst hws
    simp

/-- C6: a series of exactly one measurement yields slope `0`, a fitted value
equal to the measured value, and (incidentally) a zero raw delta. -/
theorem trend_single_point (o : Nat) (v : ℚ) :
    generate_graph [o] [v] = some ⟨0, [v], 0⟩ := by
  simp [generate_graph, olsSlope]

/-- C9: running the trend computation on an empty series fails (the model's
`none`, standing for the `ValueError` that `model.fit` raises on zero
samples — the spec's `ValidationError`). -/
theorem trend_empty_series_fails : generate_graph [] [] = none := rfl

/-- C8 evidence: `log_weight` performs no date validation.  The date string
`"2024-13-01"` is not a well-formed calendar day (its parse fails), yet the
log operation writes the row without any error — and the poisoned store then
makes a subsequent unfiltered `get_weights` fail when it tries to parse the
stored date. -/
theorem log_accepts_malformed_date :
    parseDate "2024-13-01" = none
    ∧ log_weight [] "2024-13-01" 150 = [("2024-13-01", 150)]
    ∧ get_weights (log_weight [] "2024-13-01" 150) none = none := by
  exact ⟨by decide, by decide, by decide⟩

/-- Evaluation of the scenario store query: the three logged points come back
in ascending date order with their values. -/
lemma demo_query : get_weights demoStore none =
    some ([⟨2024, 1, 1⟩, ⟨2024, 1, 8⟩, ⟨2024, 1, 15⟩], [180, 178, 176]) := by
  simp +decide [demoStore, log_weight, get_weights, query_rows, mapDates,
    List.insertionSort, List.orderedInsert, rowLE]

/-- Evaluation of the scenario trend: the three collinear points give slope
exactly `-2/7` (≈ `-0.2857` lbs/day), fitted values equal to the data, and a
raw endpoint delta of `-4`. -/
lemma demo_trend_eq : demoTrend = some ⟨-2/7, [180, 178, 176], -4⟩ := by
  have h2 : [Date.mk 2024 1 1, ⟨2024, 1, 8⟩, ⟨2024, 1, 15⟩].map toOrdinal
      = [738886, 738893, 738900] := by decide
  have h3 : generate_graph [738886, 738893, 738900] [180, 178, 176]
      = some ⟨-2/7, [180, 178, 176], -4⟩ := by
    norm_num [generate_graph, olsSlope]
  simp only [demoTrend, demo_query]
  rw [h2, h3]

/-- C7 counterexample: on the spec's end-to-end scenario the computed slope
is exactly `-2/7` (≈ `-0.29`), which is not within `1/4` of the claimed
`-0.57` lbs/day, so the claim as stated is false at this concrete input. -/
theorem end_to_end_slope_off : demoTrend = some ⟨-2/7, [180, 178, 176], -4⟩
    ∧ ¬ |(-2/7 : ℚ) - (-57/100)| < 1/4 := by
  refine ⟨demo_trend_eq, ?_⟩
  rw [show (-2/7 : ℚ) - (-57/100) = 199/700 by norm_num,
    abs_of_pos (by norm_num : (0:ℚ) < 199/700)]
  norm_num

/-- C7 (amended): logging the three scenario points into an empty store and
querying with no lower bound returns the 3 points in ascending date order;
the trend computation yields a negative slope of exactly `-2/7` ≈ `-0.29`
lbs/day (not `-0.57`), fitted values equal to the (collinear) data, and
`total_change = -4.0 = 176.0 - 180.0`, the raw delta of the actual
endpoints. -/
theorem end_to_end_scenario :
    get_weights demoStore none =
      some ([⟨2024, 1, 1⟩, ⟨2024, 1, 8⟩, ⟨2024, 1, 15⟩], [180, 178, 176])
    ∧ demoTrend = some ⟨-2/7, [180, 178, 176], -4⟩
    ∧ (-2/7 : ℚ) < 0
    ∧ (-4 : ℚ) = 176 - 180 := by
  exact ⟨demo_query, demo_trend_eq, by norm_num, by norm_num⟩

/-- C10 witness: the parallel-lists theorem applied to the concrete store
`wStore`, with the query-success hypothesis discharged by evaluation. -/
theorem query_lists_parallel_witness :
    (get_weights wStore none = some ([⟨2024, 1, 1⟩, ⟨2024, 1, 2⟩], [1, 2]))
    ∧ (([Date.mk 2024 1 1, ⟨2024, 1, 2⟩].length = ([1, 2] : List ℚ).length)
      ∧ ∀ i (hi : i < [Date.mk 2024 1 1, ⟨2024, 1, 2⟩].length)
          (hw : i < ([1, 2] : List ℚ).length)
          (hr : i < (query_rows wStore none).length),
          parseDate ((query_rows wStore none).get ⟨i, hr⟩).1
            = some ([Date.mk 2024 1 1, ⟨2024, 1, 2⟩].get ⟨i, hi⟩)
          ∧ ((query_rows wStore none).get ⟨i, hr⟩).2 = ([1, 2] : List ℚ).get ⟨i, hw⟩) := by
  have hq : get_weights wStore none = some ([⟨2024, 1, 1⟩, ⟨2024, 1, 2⟩], [1, 2]) := by
    simp +decide [wStore, get_weights, query_rows, mapDates,
      List.insertionSort, List.orderedInsert, rowLE]
  exact ⟨hq, query_lists_parallel wStore none _ _ hq⟩

/-! ### Helper lemmas about date parsing and the range resolver -/

lemma readDD_chars {cs : List Char} {n : Nat} {rest : List Char}
    (h : readDD cs = some (n, rest)) :
    ∃ pre, cs = pre ++ rest ∧ ∀ c ∈ pre, digit? c = true := by
  rcases cs with _ | ⟨c1, _ | ⟨c2, cs'⟩⟩
  · simp [readDD] at h
  · rw [readDD] at h
    split_ifs at h with hc
    cases h
    exact ⟨[c1], by simp, by simp [hc]⟩
  · rw [readDD] at h
    split_ifs at h with h1 h2
    · cases h
      exact ⟨[c1, c2], by simp, by simp [h1, h2]⟩
    · cases h
      exact ⟨[c1], by simp, by simp [h1]⟩

lemma parseYMD_chars {cs : List Char} {v : Nat × Nat × Nat} (h : parseYMD cs = some v) :
    ∀ c ∈ cs, digit? c = true ∨ c = '-' := by
  rcases cs with _ | ⟨y1, _ | ⟨y2, _ | ⟨y3, _ | ⟨y4, _ | ⟨c5, rest⟩⟩⟩⟩⟩
  · simp [parseYMD] at h
  · simp [parseYMD] at h
  · simp [parseYMD] at h
  · simp [parseYMD] at h
  · simp [parseYMD] at h
  simp only [parseYMD.eq_def] at h
  split_ifs at h with hh
  simp only [Bool.and_eq_true, decide_eq_true_eq] at hh
  obtain ⟨⟨⟨⟨hy1, hy2⟩, hy3⟩, hy4⟩, hc5⟩ := hh
  rcases hr1 : readDD rest with _ | ⟨m, rest1⟩
  · simp [hr1] at h
  · rcases rest1 with _ | ⟨c6, rest2⟩
    · simp [hr1] at h
    · simp only [hr1] at h
      split_ifs at h with h6
      rcases hr2 : readDD rest2 with _ | ⟨dd, rest3⟩
      · simp [hr2] at h
      · simp only [hr2] at h
        split_ifs at h with he
        have hrest3 : rest3 = [] := by rwa [List.isEmpty_iff] at he
        subst hrest3
        obtain ⟨pre1, hpre1, hdig1⟩ := readDD_chars hr1
        obtain ⟨pre2, hpre2, hdig2⟩ := readDD_chars hr2
        rw [List.append_nil] at hpre2
        subst hpre1
        subst hpre2
        intro c hc
        simp only [List.mem_cons, List.mem_append] at hc
        rcases hc with rfl | rfl | rfl | rfl | rfl | hc | rfl | hc
        · exact Or.inl hy1
        · exact Or.inl hy2
        · exact Or.inl hy3
        · exact Or.inl hy4
        · exact Or.inr hc5
        · exact Or.inl (hdig1 c hc)
        · exact Or.inr h6
        · exact Or.inl (hdig2 c hc)

lemma parseDate_no_colon {s : String} {d : Date} (h : parseDate s = some d) :
    ∀ c ∈ s.data, c ≠ ':' := by
  unfold parseDate at h
  rcases hy : parseYMD s.data with _ | v
  · rw [hy] at h; cases h
  · intro c hc hcol
    subst hcol
    rcases parseYMD_chars hy _ hc with hd | hd
    · exact absurd hd (by decide)
    · exact absurd hd (by decide)

lemma splitColon_no_colon {l : List Char} (h : ∀ c ∈ l, c ≠ ':') :
    splitColon l = [l] := by
  induction l with
  | nil => rfl
  | cons c rest ih =>
    have hc : c ≠ ':' := h c (by simp)
    have hr := ih (fun x hx => h x (by simp [hx]))
    simp [splitColon, hr, hc]

/-- Resolution of a stored `from:<date>` default: the resolver finds the
preference, strips the tag through `split(':')[1]`, and parses the date. -/
lemma resolve_from_tag (s : String) (d : Date) (hp : parseDate s = some d) (today : Nat) :
    resolveStart [("default_range", "from:" ++ s)] none none today
      = some (some (toOrdinal d)) := by
  have hnc : ∀ c ∈ s.data, c ≠ ':' := parseDate_no_colon hp
  have hdata : ("from:" ++ s).data = 'f' :: 'r' :: 'o' :: 'm' :: ':' :: s.data := by
    rw [String.data_append]
    rfl
  have hsf : startsFrom ("from:" ++ s) = true := by
    rw [startsFrom.eq_def, hdata]
    simp
  have hsplit : splitColon (("from:" ++ s).data) = [['f', 'r', 'o', 'm'], s.data] := by
    rw [hdata]
    simp [splitColon, splitColon_no_colon hnc]
  have hgp : get_preference [("default_range", "from:" ++ s)] "default_range" "all"
      = "from:" ++ s := by
    simp [get_preference]
  have hmk : (⟨s.data⟩ : String) = s := rfl
  simp only [resolveStart, hgp, hsf, if_true, hsplit, List.getD, List.get?_cons_succ,
    List.get?_cons_zero, Option.getD_some, hmk, hp]

/-- C3: for every injected today and stored preferences, the resolver maps
tag `1m` to today − 30, `6m` to today − 180, `1y` to today − 365 (fixed day
counts); `all` — or any tag that is neither `from:`-tagged nor one of the
three window tags — yields no lower bound; a stored `from:<date>` default
resolves to that date; an explicit `from_date` wins over any tag; and in
particular `1m` with today = 2024-03-31 resolves to 2024-03-01. -/
theorem range_resolution (prefs : Prefs) (today : Nat) :
    resolveStart prefs (some "1m") none today = some (some (today - 30))
    ∧ resolveStart prefs (some "6m") none today = some (some (today - 180))
    ∧ resolveStart prefs (some "1y") none today = some (some (today - 365))
    ∧ resolveStart prefs (some "all") none today = some none
    ∧ (∀ tag : String, startsFrom tag = false → tag ≠ "1m" → tag ≠ "6m" → tag ≠ "1y" →
        resolveStart prefs (some tag) none today = some none)
    ∧ (∀ s d, parseDate s = some d →
        resolveStart [("default_range", "from:" ++ s)] none none today
          = some (some (toOrdinal d)))
    ∧ (∀ fd d args_range, parseDate fd = some d →
        resolveStart prefs args_range (some fd) today = some (some (toOrdinal d)))
    ∧ resolveStart [] (some "1m") none (toOrdinal ⟨2024, 3, 31⟩)
        = some (some (toOrdinal ⟨2024, 3, 1⟩)) := by
  refine ⟨?_, ?_, ?_, ?_, ?_, ?_, ?_, ?_⟩
  · simp +decide [resolveStart]
  · simp +decide [resolveStart]
  · simp +decide [resolveStart]
  · simp +decide [resolveStart]
  · intro tag hsf h1 h6 hy
    simp only [resolveStart, hsf, Bool.false_eq_true, if_false, if_neg h1, if_neg h6, if_neg hy]
  · exact fun s d hp => resolve_from_tag s d hp today
  · intro fd d ar hp
    simp only [resolveStart, hp]
  · decide

/-- C3 witness: the resolver theorem applied at concrete inputs, with the
unrecognized-tag and the two parse hypotheses discharged by `decide` at tag
`"2w"` and dates `2023-01-01` and `2022-06-15`. -/
theorem range_resolution_witness :
    (startsFrom "2w" = false ∧ "2w" ≠ "1m" ∧ "2w" ≠ "6m" ∧ "2w" ≠ "1y"
      ∧ parseDate "2023-01-01" = some ⟨2023, 1, 1⟩
      ∧ parseDate "2022-06-15" = some ⟨2022, 6, 15⟩)
    ∧ resolveStart [] (some "2w") none 1000 = some none
    ∧ resolveStart [("default_range", "from:" ++ "2023-01-01")] none none 1000
        = some (some (toOrdinal ⟨2023, 1, 1⟩))
    ∧ resolveStart [] (some "1y") (some "2022-06-15") 1000
        = some (some (toOrdinal ⟨2022, 6, 15⟩)) := by
  refine ⟨by decide, ?_, ?_, ?_⟩
  · exact (range_resolution [] 1000).2.2.2.2.1 "2w" (by decide) (by decide) (by decide)
      (by decide)
  · exact (range_resolution [] 1000).2.2.2.2.2.1 "2023-01-01" ⟨2023, 1, 1⟩ (by decide)
  · exact (range_resolution [] 1000).2.2.2.2.2.2.1 "2022-06-15" ⟨2022, 6, 15⟩ (some "1y")
      (by decide)

/-! ### Helper lemmas for the ISO-string versus chronological order claim -/

lemma mod10_lt (x : Nat) : x % 10 < 10 := Nat.mod_lt _ (by norm_num)

lemma digitChar_lt_iff : ∀ a < 10, ∀ b < 10, (digitChar a < digitChar b ↔ a < b) := by decide

lemma digitChar_eq_iff : ∀ a < 10, ∀ b < 10, (digitChar a = digitChar b ↔ a = b) := by decide

lemma char_list_lt_cons {a b : Char} {l1 l2 : List Char} :
    (a :: l1) < (b :: l2) ↔ a < b ∨ (a = b ∧ l1 < l2) := by
  constructor
  · intro h
    cases h with
    | rel h => exact Or.inl h
    | cons h => exact Or.inr ⟨rfl, h⟩
  · rintro (h | ⟨rfl, h⟩)
    · exact List.Lex.rel h
    · exact List.Lex.cons h

lemma char_nil_lt_nil : (([] : List Char) < []) ↔ False := by
  constructor
  · intro h
    cases h
  · exact False.elim

lemma digits2_lt_iff_final (x y : Nat) (hx : x < 100) (hy : y < 100) :
    (x / 10 % 10 < y / 10 % 10 ∨ x / 10 % 10 = y / 10 % 10 ∧ x % 10 < y % 10) ↔ x < y := by
  omega

lemma digits2_lt_iff (x y : Nat) (hx : x < 100) (hy : y < 100) (R : Prop) :
    (x / 10 % 10 < y / 10 % 10 ∨ x / 10 % 10 = y / 10 % 10 ∧
      (x % 10 < y % 10 ∨ x % 10 = y % 10 ∧ R)) ↔ (x < y ∨ x = y ∧ R) := by
  by_cases hR : R <;> simp [hR] <;> omega

lemma split100 (x y : Nat) (R : Prop) :
    (x / 100 < y / 100 ∨ x / 100 = y / 100 ∧ (x % 100 < y % 100 ∨ x % 100 = y % 100 ∧ R))
      ↔ (x < y ∨ x = y ∧ R) := by
  by_cases hR : R <;> simp [hR] <;> omega

lemma digits4_lt_iff (x y : Nat) (hx : x < 10000) (hy : y < 10000) (R : Prop) :
    (x / 1000 % 10 < y / 1000 % 10 ∨ x / 1000 % 10 = y / 1000 % 10 ∧
      (x / 100 % 10 < y / 100 % 10 ∨ x / 100 % 10 = y / 100 % 10 ∧
        (x / 10 % 10 < y / 10 % 10 ∨ x / 10 % 10 = y / 10 % 10 ∧
          (x % 10 < y % 10 ∨ x % 10 = y % 10 ∧ R)))) ↔ (x < y ∨ x = y ∧ R) := by
  have k1 : x / 1000 % 10 = x / 100 / 10 % 10 := by omega
  have k2 : y / 1000 % 10 = y / 100 / 10 % 10 := by omega
  have k3 : x / 100 % 10 = x / 100 % 10 := rfl
  have k4 : x / 10 % 10 = x % 100 / 10 % 10 := by omega
  have k5 : y / 10 % 10 = y % 100 / 10 % 10 := by omega
  have k6 : x % 10 = x % 100 % 10 := by omega
  have k7 : y % 10 = y % 100 % 10 := by omega
  rw [k1, k2, k4, k5, k6, k7,
    digits2_lt_iff (x % 100) (y % 100) (by omega) (by omega) R,
    digits2_lt_iff (x / 100) (y / 100) (by omega) (by omega)
      (x % 100 < y % 100 ∨ x % 100 = y % 100 ∧ R),
    split100]

lemma isoChars_lt_iff {a b : Date} (ha : a.year < 10000) (hb : b.year < 10000)
    (ham : a.month < 100) (hbm : b.month < 100) (had : a.day < 100) (hbd : b.day < 100) :
    isoChars a < isoChars b ↔ dateFieldLt a b := by
  simp only [isoChars, pad4, pad2, List.cons_append, List.nil_append]
  simp only [char_list_lt_cons, char_nil_lt_nil, digitChar_lt_iff _ (mod10_lt _) _ (mod10_lt _),
    digitChar_eq_iff _ (mod10_lt _) _ (mod10_lt _), lt_self_iff_false, and_false, false_or,
    or_false, true_and, eq_self_iff_true]
  rw [digits2_lt_iff_final a.day b.day had hbd,
    digits2_lt_iff a.month b.month ham hbm (a.day < b.day),
    digits4_lt_iff a.year b.year ha hb]
  unfold dateFieldLt
  rfl

lemma leapYear_iff (y : Nat) :
    leapYear y = true ↔ (y % 4 = 0 ∧ (y % 100 ≠ 0 ∨ y % 400 = 0)) := by
  unfold leapYear
  simp [Bool.and_eq_true, Bool.or_eq_true]

set_option maxHeartbeats 1600000 in
lemma daysBeforeYear_succ (y : Nat) (h : 1 ≤ y) :
    daysBeforeYear (y + 1) = daysBeforeYear y + (if leapYear y then 366 else 365) := by
  by_cases hl : leapYear y = true
  · rw [if_pos hl]
    rw [leapYear_iff] at hl
    unfold daysBeforeYear
    omega
  · rw [if_neg hl]
    rw [leapYear_iff] at hl
    push_neg at hl
    unfold daysBeforeYear
    omega

lemma daysBeforeYear_mono {y1 y2 : Nat} (h : y1 ≤ y2) :
    daysBeforeYear y1 ≤ daysBeforeYear y2 := by
  induction y2 with
  | zero =>
    have : y1 = 0 := by omega
    subst this
    exact le_refl _
  | succ n ih =>
    rcases Nat.lt_or_ge y1 (n + 1) with hlt | hge
    · have hn : y1 ≤ n := by omega
      have h1 := ih hn
      rcases Nat.eq_zero_or_pos n with rfl | hpos
      · have hy0 : y1 = 0 := by omega
        subst hy0
        show daysBeforeYear 0 ≤ daysBeforeYear (0 + 1)
        norm_num [daysBeforeYear]
      · have h2 := daysBeforeYear_succ n hpos
        by_cases hl : leapYear n = true
        · rw [if_pos hl] at h2
          omega
        · rw [if_neg hl] at h2
          omega
    · have he : y1 = n + 1 := by omega
      subst he
      exact le_refl _

lemma daysBeforeMonth_bound (y m : Nat) (h1 : 1 ≤ m) (h2 : m ≤ 12) :
    daysBeforeMonth y m + daysInMonth y m ≤ 365 + (if leapYear y then 1 else 0) := by
  rcases e : leapYear y <;> interval_cases m <;>
    simp [daysBeforeMonth, daysInMonth, e]

lemma daysBeforeMonth_gap (y : Nat) {m m' : Nat} (h1 : 1 ≤ m) (h : m < m') (h2 : m' ≤ 12) :
    daysBeforeMonth y m + daysInMonth y m ≤ daysBeforeMonth y m' := by
  have hm12 : m ≤ 11 := by omega
  rcases e : leapYear y <;> interval_cases m <;> interval_cases m' <;>
    simp [daysBeforeMonth, daysInMonth, e]

lemma toOrdinal_lt_of_fieldLt {a b : Date} (hva : validDate a) (hvb : validDate b)
    (h : dateFieldLt a b) : toOrdinal a < toOrdinal b := by
  obtain ⟨ha1, ha2, ha3, ha4, ha5, ha6⟩ := hva
  obtain ⟨hb1, hb2, hb3, hb4, hb5, hb6⟩ := hvb
  unfold toOrdinal
  rcases h with hy | ⟨hy, hm | ⟨hm, hd⟩⟩
  · have e1 := daysBeforeMonth_bound a.year a.month ha3 ha4
    have e2 := daysBeforeYear_succ a.year ha1
    have e3 : daysBeforeYear (a.year + 1) ≤ daysBeforeYear b.year :=
      daysBeforeYear_mono (by omega)
    by_cases hl : leapYear a.year = true
    · rw [if_pos hl] at e1 e2
      omega
    · rw [if_neg hl] at e1 e2
      omega
  · rw [hy] at ha6 ⊢
    have e1 := daysBeforeMonth_gap b.year ha3 hm hb4
    omega
  · rw [hy, hm]
    omega

lemma dateFieldLt_trichotomy (a b : Date) : dateFieldLt a b ∨ a = b ∨ dateFieldLt b a := by
  rcases a with ⟨y1, m1, d1⟩
  rcases b with ⟨y2, m2, d2⟩
  unfold dateFieldLt
  simp only [Date.mk.injEq]
  omega

lemma toOrdinal_lt_iff {a b : Date} (hva : validDate a) (hvb : validDate b) :
    toOrdinal a < toOrdinal b ↔ dateFieldLt a b := by
  constructor
  · intro h
    rcases dateFieldLt_trichotomy a b with hlt | rfl | hgt
    · exact hlt
    · exact absurd h (lt_irrefl _)
    · exact absurd h (not_lt.2 (le_of_lt (toOrdinal_lt_of_fieldLt hvb hva hgt)))
  · exact toOrdinal_lt_of_fieldLt hva hvb

lemma dval_lt_10 {c : Char} (h : digit? c = true) : dval c < 10 := by
  unfold digit? at h
  unfold dval
  simp only [Bool.and_eq_true, decide_eq_true_eq] at h
  omega

lemma digitChar_dval {c : Char} (h : digit? c = true) : digitChar (dval c) = c := by
  unfold digit? at h
  simp only [Bool.and_eq_true, decide_eq_true_eq] at h
  unfold digitChar dval
  rw [show 48 + (c.toNat - 48) = c.toNat by omega]
  exact Char.ofNat_toNat c

lemma readDD_cases {cs : List Char} {n : Nat} {rest : List Char}
    (h : readDD cs = some (n, rest)) :
    (∃ c, cs = c :: rest ∧ digit? c = true ∧ n = dval c)
    ∨ (∃ c1 c2, cs = c1 :: c2 :: rest ∧ digit? c1 = true ∧ digit? c2 = true
        ∧ n = 10 * dval c1 + dval c2) := by
  rcases cs with _ | ⟨c1, _ | ⟨c2, cs'⟩⟩
  · simp [readDD] at h
  · rw [readDD] at h
    split_ifs at h with hc
    cases h
    exact Or.inl ⟨c1, rfl, hc, rfl⟩
  · rw [readDD] at h
    split_ifs at h with h1 h2
    · cases h
      exact Or.inr ⟨c1, c2, rfl, h1, h2, rfl⟩
    · cases h
      exact Or.inl ⟨c1, rfl, h1, rfl⟩

lemma parseYMD_decomp {cs : List Char} {y m d : Nat} (h : parseYMD cs = some (y, m, d)) :
    ∃ y1 y2 y3 y4 rest rest2,
      cs = y1 :: y2 :: y3 :: y4 :: '-' :: rest
      ∧ digit? y1 = true ∧ digit? y2 = true ∧ digit? y3 = true ∧ digit? y4 = true
      ∧ y = 1000 * dval y1 + 100 * dval y2 + 10 * dval y3 + dval y4
      ∧ readDD rest = some (m, '-' :: rest2)
      ∧ readDD rest2 = some (d, []) := by
  rcases cs with _ | ⟨y1, _ | ⟨y2, _ | ⟨y3, _ | ⟨y4, _ | ⟨c5, rest⟩⟩⟩⟩⟩
  · simp [parseYMD] at h
  · simp [parseYMD] at h
  · simp [parseYMD] at h
  · simp [parseYMD] at h
  · simp [parseYMD] at h
  simp only [parseYMD.eq_def] at h
  split_ifs at h with hh
  simp only [Bool.and_eq_true, decide_eq_true_eq] at hh
  obtain ⟨⟨⟨⟨hy1, hy2⟩, hy3⟩, hy4⟩, hc5⟩ := hh
  subst hc5
  rcases hr1 : readDD rest with _ | ⟨m', rest1⟩
  · simp [hr1] at h
  · rcases rest1 with _ | ⟨c6, rest2⟩
    · simp [hr1] at h
    · simp only [hr1] at h
      split_ifs at h with h6
      subst h6
      rcases hr2 : readDD rest2 with _ | ⟨d', rest3⟩
      · simp [hr2] at h
      · simp only [hr2] at h
        split_ifs at h with he
        have hrest3 : rest3 = [] := by rwa [List.isEmpty_iff] at he
        subst hrest3
        cases h
        exact ⟨y1, y2, y3, y4, rest, rest2, rfl, hy1, hy2, hy3, hy4, rfl, hr1, hr2⟩

lemma parseDate_valid {s : String} {d : Date} (h : parseDate s = some d) :
    validDate d ∧ d.year ≤ 9999 ∧ d.month ≤ 99 ∧ d.day ≤ 99 := by
  unfold parseDate at h
  rcases hy : parseYMD s.data with _ | ⟨y, m, dd⟩
  · rw [hy] at h; cases h
  · simp only [hy] at h
    split_ifs at h with hv
    cases h
    obtain ⟨y1, y2, y3, y4, rest, rest2, hcs, h1, h2, h3, h4, hyv, hr1, hr2⟩ :=
      parseYMD_decomp hy
    have b1 := dval_lt_10 h1
    have b2 := dval_lt_10 h2
    have b3 := dval_lt_10 h3
    have b4 := dval_lt_10 h4
    have hm : m ≤ 99 := by
      rcases readDD_cases hr1 with ⟨c, _, hc, hn⟩ | ⟨c1, c2, _, hc1, hc2, hn⟩
      · have := dval_lt_10 hc
        omega
      · have := dval_lt_10 hc1
        have := dval_lt_10 hc2
        omega
    have hd : dd ≤ 99 := by
      rcases readDD_cases hr2 with ⟨c, _, hc, hn⟩ | ⟨c1, c2, _, hc1, hc2, hn⟩
      · have := dval_lt_10 hc
        omega
      · have := dval_lt_10 hc1
        have := dval_lt_10 hc2
        omega
    have hy9999 : y ≤ 9999 := by omega
    exact ⟨⟨hv.1, hy9999, hv.2.1, hv.2.2.1, hv.2.2.2.1, hv.2.2.2.2⟩, hy9999, hm, hd⟩

lemma parseDate_ten_toISO {s : String} {d : Date} (h : parseDate s = some d)
    (hlen : s.data.length = 10) : s = toISO d := by
  unfold parseDate at h
  rcases hy : parseYMD s.data with _ | ⟨y, m, dd⟩
  · rw [hy] at h; cases h
  · simp only [hy] at h
    split_ifs at h with hv
    cases h
    obtain ⟨y1, y2, y3, y4, rest, rest2, hcs, h1, h2, h3, h4, hyv, hr1, hr2⟩ :=
      parseYMD_decomp hy
    rcases readDD_cases hr1 with ⟨c, hrc, hc, hn⟩ | ⟨c1, c2, hrc, hc1, hc2, hn⟩
    · rcases readDD_cases hr2 with ⟨f, hre, hf, hnf⟩ | ⟨f1, f2, hre, hf1, hf2, hnf⟩
      · rw [hcs, hrc, hre] at hlen
        simp at hlen
      · rw [hcs, hrc, hre] at hlen
        simp at hlen
    · rcases readDD_cases hr2 with ⟨f, hre, hf, hnf⟩ | ⟨f1, f2, hre, hf1, hf2, hnf⟩
      · rw [hcs, hrc, hre] at hlen
        simp at hlen
      · -- the only shape of length 10: two-digit month and day
        have b1 := dval_lt_10 h1
        have b2 := dval_lt_10 h2
        have b3 := dval_lt_10 h3
        have b4 := dval_lt_10 h4
        have bc1 := dval_lt_10 hc1
        have bc2 := dval_lt_10 hc2
        have bf1 := dval_lt_10 hf1
        have bf2 := dval_lt_10 hf2
        have q1 : y / 1000 % 10 = dval y1 := by omega
        have q2 : y / 100 % 10 = dval y2 := by omega
        have q3 : y / 10 % 10 = dval y3 := by omega
        have q4 : y % 10 = dval y4 := by omega
        have q5 : m / 10 % 10 = dval c1 := by omega
        have q6 : m % 10 = dval c2 := by omega
        have q7 : dd / 10 % 10 = dval f1 := by omega
        have q8 : dd % 10 = dval f2 := by omega
        rcases s with ⟨sd⟩
        have hsd : sd = y1 :: y2 :: y3 :: y4 :: '-' :: rest := hcs
        subst hsd
        subst hrc
        subst hre
        unfold toISO
        show String.mk _ = String.mk _
        congr 1
        unfold isoChars pad4 pad2
        rw [q1, q2, q3, q4, q5, q6, q7, q8,
          digitChar_dval h1, digitChar_dval h2, digitChar_dval h3, digitChar_dval h4,
          digitChar_dval hc1, digitChar_dval hc2, digitChar_dval hf1, digitChar_dval hf2]
        rfl

lemma toISO_lt_iff_toOrdinal {a b : Date} (hva : validDate a) (hvb : validDate b)
    (hay : a.year ≤ 9999) (hby : b.year ≤ 9999) (ham : a.month ≤ 99) (hbm : b.month ≤ 99)
    (had : a.day ≤ 99) (hbd : b.day ≤ 99) :
    toISO a < toISO b ↔ toOrdinal a < toOrdinal b := by
  have h1 : toISO a < toISO b ↔ isoChars a < isoChars b := by
    rw [String.lt_iff_toList_lt]
    exact Iff.rfl
  rw [h1, isoChars_lt_iff (by omega) (by omega) (by omega) (by omega) (by omega) (by omega)]
  exact (toOrdinal_lt_iff hva hvb).symm

/-- C5: for well-formed zero-padded `YYYY-MM-DD` strings (ten characters
that `strptime` parses), lexicographic string comparison — the comparison
the storage layer's `date >= ?` filter performs on `TEXT` — agrees with
chronological comparison (via `toordinal`) of the dates they denote, for
both the weak and the strict order. -/
theorem string_order_is_chronological (s1 s2 : String) (d1 d2 : Date)
    (h1 : parseDate s1 = some d1) (h2 : parseDate s2 = some d2)
    (hl1 : s1.data.length = 10) (hl2 : s2.data.length = 10) :
    (s1 ≤ s2 ↔ toOrdinal d1 ≤ toOrdinal d2) ∧ (s1 < s2 ↔ toOrdinal d1 < toOrdinal d2) := by
  obtain ⟨hv1, hy1, hm1, hd1⟩ := parseDate_valid h1
  obtain ⟨hv2, hy2, hm2, hd2⟩ := parseDate_valid h2
  have e1 : s1 = toISO d1 := parseDate_ten_toISO h1 hl1
  have e2 : s2 = toISO d2 := parseDate_ten_toISO h2 hl2
  subst e1
  subst e2
  have k12 := toISO_lt_iff_toOrdinal hv1 hv2 hy1 hy2 hm1 hm2 hd1 hd2
  have k21 := toISO_lt_iff_toOrdinal hv2 hv1 hy2 hy1 hm2 hm1 hd2 hd1
  constructor
  · show (¬ toISO d2 < toISO d1) ↔ _
    rw [k21]
    exact not_lt
  · exact k12

/-- C5 witness: the agreement theorem applied to the concrete date strings
`"2024-01-09" < "2024-01-10"` (a pair on which naive string comparison could
plausibly go wrong), with all four hypotheses discharged by `decide`. -/
theorem string_order_is_chronological_witness :
    (parseDate "2024-01-09" = some ⟨2024, 1, 9⟩
      ∧ parseDate "2024-01-10" = some ⟨2024, 1, 10⟩
      ∧ ("2024-01-09" : String).data.length = 10
      ∧ ("2024-01-10" : String).data.length = 10)
    ∧ ((("2024-01-09" : String) ≤ "2024-01-10")
        ↔ toOrdinal ⟨2024, 1, 9⟩ ≤ toOrdinal ⟨2024, 1, 10⟩)
      ∧ ((("2024-01-09" : String) < "2024-01-10")
        ↔ toOrdinal ⟨2024, 1, 9⟩ < toOrdinal ⟨2024, 1, 10⟩) := by
  refine ⟨⟨by decide, by decide, by decide, by decide⟩, ?_⟩
  exact string_order_is_chronological "2024-01-09" "2024-01-10" _ _ (by decide) (by decide)
    (by decide) (by decide)
